import Mathlib

/-!
# Verification of `Atom-LiveView`

A shallow embedding, in Lean 4, of the two components of the
`Alhadis/Atom-LiveView` repository that the specification describes:

* `ObservedKeyList` (`src/lib/observed-key-list.js`) — an insertion-ordered
  set of config-key names; each present key holds exactly one subscription
  to the host's change notifications, and all notifications are coalesced
  into a single deferred invocation of one callback.
* `AtomLiveView` (`src/lib/atom-live-view.js`) — the render-lifecycle state
  machine built on top of it (`renderState`, `handleRender`, and the
  active-pane-item observer installed by the constructor).

JavaScript runtime values that matter to the code are modelled explicitly:
strings are Lean `String`s (backed by `List Char`), the callback slot can
hold `null`, a function, or a non-function value, and the arguments of
`add`/`delete` range over strings, numbers, booleans, iterable objects
(arrays) and plain non-iterable objects.  The single-threaded event loop is
modelled as an explicit list of events folded over the state; a thrown
`TypeError` surfaces as an `Option String`/`Except String` error component
in the result.
-/

namespace AtomLiveViewRepo

/-- Equality of `Except` results is decidable componentwise; needed so that
concrete program runs can be settled with `decide`. -/
instance exceptDecEq {α β : Type} [DecidableEq α] [DecidableEq β] :
    DecidableEq (Except α β)
  | .ok x, .ok y =>
    match decEq x y with
    | isTrue h => isTrue (by rw [h])
    | isFalse h => isFalse (fun hc => h (Except.ok.inj hc))
  | .error x, .error y =>
    match decEq x y with
    | isTrue h => isTrue (by rw [h])
    | isFalse h => isFalse (fun hc => h (Except.error.inj hc))
  | .ok _, .error _ => isFalse (fun hc => Except.noConfusion hc)
  | .error _, .ok _ => isFalse (fun hc => Except.noConfusion hc)

/-! ## JavaScript value modelling -/

/-- Characters matched by the regular expression `\s` used in
`normaliseKeys` (`value.trim().split(/\s+/)`); the ASCII portion, which is
what config-key inputs consist of. -/
def jsIsSpace (c : Char) : Bool :=
  c = ' ' || c = '\t' || c = '\n' || c = '\r' || c = '\x0b' || c = '\x0c'

/-- A value that may occupy the `callback` slot of an `ObservedKeyList`:
`null`, a function (identified by a tag so distinct functions can be told
apart), or any other non-function value, remembering only its JS
truthiness, which is all the source ever asks of such a value. -/
inductive CBVal where
  | null : CBVal
  | func (id : Nat) : CBVal
  | nonfunc (truthy : Bool) : CBVal
deriving Repr, DecidableEq

/-- JS truthiness of a callback-slot value, as tested by `!this.callback`. -/
def CBVal.jsTruthy : CBVal → Bool
  | .null => false
  | .func _ => true
  | .nonfunc t => t

mutual
/-- A JavaScript value passed to `add`/`delete`/`normaliseKeys`: a string, a
number, a boolean, an iterable object (an array of further values), or a
plain non-iterable object.  Reference identity plays no role here: the
`WeakSet` guard in `normaliseKeys` only skips a collection revisited by
reference, which cannot happen for the tree-shaped values this type can
express, so the guard is vacuous on them. -/
inductive KeyVal where
  | str (s : String) : KeyVal
  | num (n : Int) : KeyVal
  | boolV (b : Bool) : KeyVal
  | arr (elems : KeyValList) : KeyVal
  | obj : KeyVal
deriving Repr

/-- A JavaScript array of `KeyVal`s (for example the rest-parameter array
`keys` of `add(...keys)`, or a nested iterable). -/
inductive KeyValList where
  | nil : KeyValList
  | cons (head : KeyVal) (tail : KeyValList) : KeyValList
deriving Repr
end

/-- Build a `KeyValList` from a Lean list, for readable concrete inputs. -/
def kvList : List KeyVal → KeyValList
  | [] => .nil
  | v :: vs => .cons v (kvList vs)

/-- JS truthiness of a `KeyVal`, as tested by `if(!value) continue;`. -/
def KeyVal.jsTruthy : KeyVal → Bool
  | .str s => !s.data.isEmpty
  | .num n => n != 0
  | .boolV b => b
  | .arr _ => true
  | .obj => true

/-- `String(v)` for a scalar (non-object) value, as in the `default:`
branch of the outer `switch` of `normaliseKeys`. -/
def KeyVal.jsString : KeyVal → String
  | .str s => s
  | .num n => toString n
  | .boolV b => if b then "true" else "false"
  | .arr _ => ""
  | .obj => ""

/-! ## `value.trim().split(/\s+/)`

`splitWords` returns the maximal runs of non-whitespace characters.  For a
trimmed string this is exactly what `split(/\s+/)` returns, except that an
all-whitespace string trims to `""` and `"".split(/\s+/)` is `[""]`;
`trimSplit` reproduces that case faithfully. -/

/-- The maximal runs of non-`\s` characters of a character list, in order,
as strings. -/
def splitWords : List Char → List String
  | [] => []
  | c :: cs =>
    let rest := splitWords cs
    if jsIsSpace c then rest
    else
      match cs with
      | [] => [String.mk [c]]
      | d :: _ =>
        if jsIsSpace d then String.mk [c] :: rest
        else
          match rest with
          | [] => [String.mk [c]]
          | w :: ws => String.mk (c :: w.data) :: ws

/-- `s.trim().split(/\s+/)` exactly as JavaScript computes it: the words of
`s`, or `[""]` when `s` is entirely whitespace (then `trim` yields `""` and
splitting `""` yields `[""]`, so the empty string survives as an entry). -/
def trimSplit (s : String) : List String :=
  match splitWords s.data with
  | [] => [""]
  | ws => ws

/-! ## `ObservedKeyList.prototype.normaliseKeys`

The outer `switch(typeof input)` coerces a scalar with `String(input)` and
falls through to the string case; a string is wrapped in a one-element
array; an object must be iterable (else
`throw new TypeError("Object is not iterable")`) and is spread via
`Array.from`.  The inner loop skips falsy elements, splits strings on
whitespace after trimming, and recurses into object elements via
`this.normaliseKeys(value, refs)`.  Elements of any other type match no
`case` of the inner `switch` and are silently skipped. -/

/-- The inner `for(const value of input)` loop of `normaliseKeys`: falsy
elements are skipped; a string contributes `value.trim().split(/\s+/)`; an
object element is passed to the recursive `this.normaliseKeys(value,
refs)` call, which for an iterable flattens its elements (the `.arr` case
below) and for a non-iterable throws (the `.obj` case); a number or
boolean matches no `case` of the inner `switch` and is skipped.  The
explicit `match` on the recursive results makes the propagation of a
thrown `TypeError` out of the loop literal in the definition. -/
def normaliseFlat : KeyValList → Except String (List String)
  | .nil => .ok []
  | .cons v rest =>
    if v.jsTruthy then
      match v with
      | .str s =>
        match normaliseFlat rest with
        | .error e => .error e
        | .ok r => .ok (trimSplit s ++ r)
      | .arr xs =>
        match normaliseFlat xs with
        | .error e => .error e
        | .ok ys =>
          match normaliseFlat rest with
          | .error e => .error e
          | .ok r => .ok (ys ++ r)
      | .obj => .error "Object is not iterable"
      | _ => normaliseFlat rest
    else normaliseFlat rest

/-- `ObservedKeyList.prototype.normaliseKeys` applied to one input value:
the outer `switch(typeof input)` (coerce scalars, wrap strings, require
iterability of objects), followed by the flattening loop. -/
def normaliseKeys : KeyVal → Except String (List String)
  | .str s => normaliseFlat (kvList [.str s])
  | .arr xs => normaliseFlat xs
  | .obj => .error "Object is not iterable"
  | v => normaliseFlat (kvList [.str v.jsString])

/-! ## The `ObservedKeyList` instance state

`keys` is the underlying `Set` contents in insertion order; `subs` is the
`MappedDisposable` mapping each key to its `atom.config.observe`
subscription, each represented by a fresh numeric handle drawn from
`nextHandle`; `disposed` records every handle on which the host's
`dispose` has been called; `storeGen` counts how many `MappedDisposable`
stores the instance has owned (incremented when `clear` assigns
`this.disposables = new MappedDisposable()`).  `callbackQueued` and
`scheduled` model the coalescing machinery: `scheduled` is the number of
`process.nextTick` thunks queued by the instance and not yet run.
`invocations` is the history of calls made to `this.callback()`, each
recording the argument count and whether `this` was bound to the
instance — the call site `this.callback()` fixes both. -/

/-- One record per call of `this.callback()`. -/
structure Invocation where
  argCount : Nat
  contextIsInstance : Bool
deriving Repr, DecidableEq

/-- The full observable state of an `ObservedKeyList` instance, together
with the `process.nextTick` queue entries it owns. -/
structure OKL where
  keys : List String
  subs : List (String × Nat)
  disposed : List Nat
  nextHandle : Nat
  storeGen : Nat
  callback : CBVal
  callbackQueued : Bool
  scheduled : Nat
  invocations : List Invocation
deriving Repr, DecidableEq

/-- The change-notification handler registered for every key
(`observed-key-list.js` lines 65–72): bail out when a dispatch is already
queued or the callback is falsy, otherwise set `callbackQueued` and queue
one `process.nextTick` thunk.  `atom.config.observe` also invokes this
handler once immediately upon subscription, so `addKey` below runs it. -/
def observeHandler (s : OKL) : OKL :=
  if s.callbackQueued || !s.callback.jsTruthy then s
  else { s with callbackQueued := true, scheduled := s.scheduled + 1 }

/-- The body of the loop in `add` for a single normalised key: skip keys
already present, otherwise insert the key, register a fresh subscription,
and let `atom.config.observe` fire the handler once for the initial
value. -/
def addKey (s : OKL) (k : String) : OKL :=
  if s.keys.contains k then s
  else
    observeHandler
      { s with
        keys := s.keys ++ [k],
        subs := s.subs ++ [(k, s.nextHandle)],
        nextHandle := s.nextHandle + 1 }

/-- `ObservedKeyList.prototype.add(...keys)`: the `for…of` loop's iterable
`this.normaliseKeys(keys)` is evaluated in full before the first
iteration, so when normalisation throws, the instance is returned
untouched together with the error. -/
def add (s : OKL) (args : KeyValList) : OKL × Option String :=
  match normaliseFlat args with
  | .error e => (s, some e)
  | .ok ks => (ks.foldl addKey s, none)

/-- The body of the loop in `delete` for a single normalised key:
`super.delete(key)` then `this.disposables.dispose(key)`, which disposes
and removes that key's entry (a silent no-op for an absent key). -/
def deleteKey (s : OKL) (k : String) : OKL :=
  { s with
    keys := s.keys.filter (fun x => x != k),
    subs := s.subs.filter (fun p => p.1 != k),
    disposed := s.disposed ++ (s.subs.filter (fun p => p.1 == k)).map Prod.snd }

/-- `ObservedKeyList.prototype.delete(...keys)`: same normalise-first shape
as `add`. -/
def del (s : OKL) (args : KeyValList) : OKL × Option String :=
  match normaliseFlat args with
  | .error e => (s, some e)
  | .ok ks => (ks.foldl deleteKey s, none)

/-- `ObservedKeyList.prototype.clear()`: `super.clear()`, dispose the whole
`MappedDisposable`, then replace it with a fresh empty store.  The
`callback` property is untouched. -/
def clear (s : OKL) : OKL :=
  { s with
    keys := [],
    subs := [],
    disposed := s.disposed ++ s.subs.map Prod.snd,
    storeGen := s.storeGen + 1 }

/-- The state of a freshly constructed instance (after `super()` and the
field initialisations, before any `keys` argument is processed). -/
def oklInit (cb : CBVal) : OKL :=
  { keys := [], subs := [], disposed := [], nextHandle := 0, storeGen := 0,
    callback := cb, callbackQueued := false, scheduled := 0, invocations := [] }

/-- `new ObservedKeyList(callback, ...keys)`: validate the callback
(`throw new TypeError("Callback argument is not a function")` when it is
non-null and not a function), initialise, then
`keys.length && this.add(...keys)`; an error thrown by that `add` escapes
the constructor. -/
def construct (cb : CBVal) (keys : KeyValList) : Except String OKL :=
  match cb with
  | .nonfunc _ => .error "Callback argument is not a function"
  | _ =>
    match keys with
    | .nil => .ok (oklInit cb)
    | _ =>
      match add (oklInit cb) keys with
      | (s, none) => .ok s
      | (_, some e) => .error e

/-! ## The event loop around an instance

Single-threaded cooperative scheduling: each event is one synchronous
execution.  `notify` is a config-change notification delivered to any
observed key's handler (the handler body is identical for every key);
`fire` is the run of one queued `process.nextTick` thunk — first clear
`callbackQueued`, then call `this.callback()`, which throws a `TypeError`
when the slot holds `null` or another non-function at that moment;
`setCallback` is a plain write to the `callback` property, which is an
ordinary writable data property (`Object.defineProperties` at the foot of
`observed-key-list.js`) and therefore validates nothing. -/

inductive OKLEvent where
  | notify : OKLEvent
  | fire : OKLEvent
  | setCallback (v : CBVal) : OKLEvent
  | addKeys (args : KeyValList) : OKLEvent
  | deleteKeys (args : KeyValList) : OKLEvent
  | clearAll : OKLEvent

/-- One event; the second component is the error thrown, if any. -/
def oklStep (s : OKL) : OKLEvent → OKL × Option String
  | .notify => (observeHandler s, none)
  | .fire =>
    if s.scheduled = 0 then (s, none)
    else
      let s1 := { s with callbackQueued := false, scheduled := s.scheduled - 1 }
      match s.callback with
      | .func _ =>
        ({ s1 with invocations := s1.invocations ++ [⟨0, true⟩] }, none)
      | _ => (s1, some "TypeError: this.callback is not a function")
  | .setCallback v => ({ s with callback := v }, none)
  | .addKeys args => add s args
  | .deleteKeys args => del s args
  | .clearAll => (clear s, none)

/-- Run a list of events, stopping at the first uncaught error. -/
def oklRun (s : OKL) : List OKLEvent → OKL × Option String
  | [] => (s, none)
  | e :: es =>
    match oklStep s e with
    | (s', none) => oklRun s' es
    | (s', some err) => (s', some err)

/-- A state an `ObservedKeyList` instance can actually be in: produced by
the constructor and an error-free event history. -/
def OKLReachable (s : OKL) : Prop :=
  ∃ cb ks s0 es, construct cb ks = .ok s0 ∧ oklRun s0 es = (s, none)

/-- The coalescing invariant tying the `callbackQueued` flag to the
`process.nextTick` queue: a thunk is queued exactly while the flag is
set — never more than one. -/
def OKLInv (s : OKL) : Prop :=
  s.scheduled = if s.callbackQueued then 1 else 0

/-! ## The `AtomLiveView` render-lifecycle state machine

From `src/lib/atom-live-view.js`: `renderState` is a prototype-level
writable data property whose default value is the empty string `""`
(`Object.defineProperties` at the foot of the file); the constructor never
assigns it, so a fresh view reads `""` until `handleRender` first runs.
`handleRender` is `async`: its synchronous prefix runs up to
`await this.render()`; the continuation after the awaited promise settles
is a separate turn of the event loop.  The constructor also registers
`atom.workspace.observeActivePaneItem(item => …)`, which on an active-item
change resets a `pending` view to `none` and re-dispatches `handleRender`.

`visible` models `this.getVisible()` (`isItemVisible`): the view is the
active item of a live visible pane; becoming the active pane item makes it
visible, another item becoming active makes it not visible.  `renderCalls`
counts invocations of the render procedure `this.render()`;
`startEvents`/`finishEvents`/`queueEvents` count the emissions of
`did-render-started`/`did-render-finish`/`did-queue-render`;
`restoreCalls` counts runs of `restoreOffsets()`.  `inFlight` records that
an awaited `render()` promise is outstanding. -/

structure ALV where
  renderState : String
  visible : Bool
  inFlight : Bool
  renderCalls : Nat
  startEvents : Nat
  finishEvents : Nat
  queueEvents : Nat
  restoreCalls : Nat
deriving Repr, DecidableEq

/-- A freshly constructed view: `renderState` is the prototype default
`""`; whether the new view starts out visible depends on the workspace. -/
def ALV.init (vis : Bool) : ALV :=
  { renderState := "", visible := vis, inFlight := false, renderCalls := 0,
    startEvents := 0, finishEvents := 0, queueEvents := 0, restoreCalls := 0 }

/-- The synchronous prefix of `handleRender()` (lines 457–476): return at
once when already `rendering` or `pending`; when visible, move to
`rendering`, emit `did-render-started` and call `this.render()` (the await
suspends here); otherwise move to `pending` and emit `did-queue-render`. -/
def handleRenderStart (v : ALV) : ALV :=
  if v.renderState = "rendering" || v.renderState = "pending" then v
  else if v.visible then
    { v with renderState := "rendering", inFlight := true,
             renderCalls := v.renderCalls + 1, startEvents := v.startEvents + 1 }
  else
    { v with renderState := "pending", queueEvents := v.queueEvents + 1 }

/-- The continuation of `handleRender()` when the awaited `render()`
promise settles.  Fulfilment resumes the method body: `renderState`
becomes `finished`, `did-render-finish` is emitted and `restoreOffsets()`
runs.  Rejection makes the `await` throw, so none of those statements run
and `renderState` is left as it was (`rendering`). -/
def renderSettle (ok : Bool) (v : ALV) : ALV :=
  if !v.inFlight then v
  else if ok then
    { v with inFlight := false, renderState := "finished",
             finishEvents := v.finishEvents + 1, restoreCalls := v.restoreCalls + 1 }
  else { v with inFlight := false }

/-- The `observeActivePaneItem` subscription installed by the constructor
(lines 344–349), combined with the visibility change it implies: when this
view becomes the active pane item it is visible, and if `renderState` is
`pending` it is reset to `none` and `handleRender()` re-dispatched; when
another item becomes active this view is no longer visible. -/
def activeItemChanged (isThis : Bool) (v : ALV) : ALV :=
  let v1 := { v with visible := isThis }
  if isThis && v.renderState == "pending" then
    handleRenderStart { v1 with renderState := "none" }
  else v1

inductive ALVEvent where
  | request : ALVEvent
  | settle (ok : Bool) : ALVEvent
  | activeItem (isThis : Bool) : ALVEvent

/-- One event of the view's life: a render request (`handleRender()` from
the coalesced config callback, `watchFile`, a buffer change, …), the
settling of an in-flight `render()` promise, or an active-pane-item
change.  A `settle` with no render in flight has no thunk to run and is
the identity. -/
def alvStep (v : ALV) : ALVEvent → ALV
  | .request => handleRenderStart v
  | .settle ok => renderSettle ok v
  | .activeItem b => activeItemChanged b v

/-- Run a list of view events. -/
def alvRun (v : ALV) (es : List ALVEvent) : ALV := es.foldl alvStep v

/-! ## Sanity checks on concrete inputs -/

example : trimSplit "a b" = ["a", "b"] := by decide
example : trimSplit " a  b " = ["a", "b"] := by decide
example : trimSplit " " = [""] := by decide
example : trimSplit "42" = ["42"] := by decide
example : normaliseKeys (.str "a b") = .ok ["a", "b"] := by decide
example : normaliseKeys (.arr (kvList [.str "a", .str "b"])) = .ok ["a", "b"] := by decide
example : normaliseKeys (.num 42) = .ok ["42"] := by decide
example : normaliseKeys (.arr (kvList [.num 42])) = .ok [] := by decide
example : normaliseKeys (.arr (kvList [.str "a", .obj])) =
    .error "Object is not iterable" := by decide
example : normaliseKeys (.arr (kvList [.str " "])) = .ok [""] := by decide
example : normaliseKeys (.arr (kvList [.arr (kvList [.str "a b", .str ""]), .str "c"])) =
    .ok ["a", "b", "c"] := by decide
example : add (oklInit (.func 0)) (kvList [.str "a b"]) =
    (addKey (addKey (oklInit (.func 0)) "a") "b", none) := by decide
example : (add (oklInit (.func 0)) (kvList [.str "a b"])).1.keys = ["a", "b"] := by decide
example : (add (oklInit .null) (kvList [.str "a"])).1.scheduled = 0 := by decide
example : (add (oklInit (.func 0)) (kvList [.str "a"])).1.scheduled = 1 := by decide
example : (ALV.init true).renderState = "" := by decide
example : (alvRun (ALV.init false) [.request]).renderState = "pending" := by decide
example :
    (alvRun (ALV.init false) [.request, .activeItem true]).renderState = "rendering" := by decide
example :
    (alvRun (ALV.init false) [.request, .activeItem true, .settle true]).renderState =
      "finished" := by decide
example : (alvRun (ALV.init false) [.request, .activeItem true, .settle true]).renderCalls
    = 1 := by decide
example : (alvRun (ALV.init true) [.request, .settle false, .request, .request]).renderState
    = "rendering" := by decide

/-! ## Lemmas about the render-lifecycle machine -/

/-- Unfolding one step of a run. -/
theorem alvRun_cons (v : ALV) (e : ALVEvent) (es : List ALVEvent) :
    alvRun v (e :: es) = alvRun (alvStep v e) es := rfl

/-- Any single step leaves `renderState` where it was or moves it to one of
`none`, `rendering`, `pending`, `finished`. -/
theorem alvStep_renderState (v : ALV) (e : ALVEvent) :
    (alvStep v e).renderState = v.renderState
    ∨ (alvStep v e).renderState ∈ ["none", "rendering", "pending", "finished"] := by
  cases e with
  | request =>
    simp only [alvStep, handleRenderStart]
    split
    · exact Or.inl rfl
    · split <;> simp
  | settle ok =>
    simp only [alvStep, renderSettle]
    split
    · exact Or.inl rfl
    · split <;> simp
  | activeItem b =>
    simp only [alvStep, activeItemChanged, handleRenderStart]
    split
    · split
      · simp
      · split <;> simp
    · exact Or.inl rfl

/-- The five-string invariant is preserved by every event. -/
theorem alvStep_states (v : ALV) (e : ALVEvent)
    (h : v.renderState ∈ ["", "none", "rendering", "pending", "finished"]) :
    (alvStep v e).renderState ∈ ["", "none", "rendering", "pending", "finished"] := by
  rcases alvStep_renderState v e with h1 | h1
  · rw [h1]; exact h
  · simp only [List.mem_cons] at h1 ⊢
    tauto

/-- The five-string invariant holds along any run. -/
theorem alvRun_states (v : ALV) (es : List ALVEvent)
    (h : v.renderState ∈ ["", "none", "rendering", "pending", "finished"]) :
    (alvRun v es).renderState ∈ ["", "none", "rendering", "pending", "finished"] := by
  induction es generalizing v with
  | nil => exact h
  | cons e es ih => exact ih (alvStep v e) (alvStep_states v e h)

/-- A view wedged in `rendering` with no render in flight stays wedged
across one event, with no render call, no finish event and no offset
restoration. -/
theorem alvStep_wedged (v : ALV) (e : ALVEvent)
    (h1 : v.renderState = "rendering") (h2 : v.inFlight = false) :
    (alvStep v e).renderState = "rendering" ∧ (alvStep v e).inFlight = false
    ∧ (alvStep v e).renderCalls = v.renderCalls
    ∧ (alvStep v e).finishEvents = v.finishEvents
    ∧ (alvStep v e).restoreCalls = v.restoreCalls := by
  cases e with
  | request => simp [alvStep, handleRenderStart, h1, h2]
  | settle ok => simp [alvStep, renderSettle, h1, h2]
  | activeItem b => simp [alvStep, activeItemChanged, h1, h2]

/-- A wedged view stays wedged across any sequence of events. -/
theorem alvRun_wedged (v : ALV) (es : List ALVEvent)
    (h1 : v.renderState = "rendering") (h2 : v.inFlight = false) :
    (alvRun v es).renderState = "rendering"
    ∧ (alvRun v es).renderCalls = v.renderCalls
    ∧ (alvRun v es).finishEvents = v.finishEvents
    ∧ (alvRun v es).restoreCalls = v.restoreCalls := by
  induction es generalizing v with
  | nil => exact ⟨h1, rfl, rfl, rfl⟩
  | cons e es ih =>
    obtain ⟨w1, w2, w3, w4, w5⟩ := alvStep_wedged v e h1 h2
    obtain ⟨r1, r2, r3, r4⟩ := ih (alvStep v e) w1 w2
    rw [alvRun_cons]
    exact ⟨r1, by rw [r2, w3], by rw [r3, w4], by rw [r4, w5]⟩

/-! ## Claims C4, C5, C10 -/

/-- C4 (counterexample): a freshly constructed `AtomLiveView` has
`renderState` equal to `""` — the prototype default — which is not the
string `"none"` and lies outside the claimed four-string enumeration. -/
theorem alvInitialStateNotNone_cx :
    (ALV.init true).renderState = ""
    ∧ ¬ (ALV.init true).renderState = "none"
    ∧ ¬ (ALV.init true).renderState ∈ ["none", "rendering", "pending", "finished"] := by
  decide

/-- C4 (amended): for every `AtomLiveView` instance, `renderState`
initially equals the empty string `""` (the prototype default), and after
any sequence of render requests, render completions and visibility
changes, `renderState` is always one of the five strings `""`, `"none"`,
`"rendering"`, `"pending"`, `"finished"`. -/
theorem alvRenderStateEnum (vis : Bool) (es : List ALVEvent) :
    (ALV.init vis).renderState = ""
    ∧ (alvRun (ALV.init vis) es).renderState
        ∈ ["", "none", "rendering", "pending", "finished"] := by
  refine ⟨rfl, alvRun_states _ es ?_⟩
  simp [ALV.init]

/-- C5: a render request on a non-visible view (`renderState` neither
`rendering` nor `pending`) moves the state to `pending` without invoking
the render procedure; when the view then becomes the active pane item, the
state is reset to `none` and the request re-dispatched (the step literally
equals `handleRenderStart` of the view made visible with state `none`),
landing in `rendering` with exactly one render invocation; completion
moves it to `finished` with no further invocation; and a request arriving
while the state is `rendering` or `pending` is the identity. -/
theorem alvPendingLifecycle (v w : ALV)
    (hvis : v.visible = false)
    (h1 : v.renderState ≠ "rendering") (h2 : v.renderState ≠ "pending")
    (hw : w.renderState = "rendering" ∨ w.renderState = "pending") :
    (alvStep v .request).renderState = "pending"
    ∧ (alvStep v .request).renderCalls = v.renderCalls
    ∧ alvStep (alvStep v .request) (.activeItem true)
        = handleRenderStart
            { alvStep v .request with visible := true, renderState := "none" }
    ∧ (alvStep (alvStep v .request) (.activeItem true)).renderState = "rendering"
    ∧ (alvStep (alvStep v .request) (.activeItem true)).renderCalls = v.renderCalls + 1
    ∧ (alvStep (alvStep (alvStep v .request) (.activeItem true)) (.settle true)).renderState
        = "finished"
    ∧ (alvStep (alvStep (alvStep v .request) (.activeItem true)) (.settle true)).renderCalls
        = v.renderCalls + 1
    ∧ alvStep w .request = w := by
  have hq : alvStep v .request =
      { v with renderState := "pending", queueEvents := v.queueEvents + 1 } := by
    simp [alvStep, handleRenderStart, h1, h2, hvis]
  have ha : alvStep (alvStep v .request) (.activeItem true) =
      { v with renderState := "rendering", queueEvents := v.queueEvents + 1,
               visible := true, inFlight := true,
               renderCalls := v.renderCalls + 1, startEvents := v.startEvents + 1 } := by
    rw [hq]
    simp [alvStep, activeItemChanged, handleRenderStart]
  refine ⟨by rw [hq], by rw [hq], ?_, by rw [ha], by rw [ha], ?_, ?_, ?_⟩
  · rw [ha, hq]
    simp [activeItemChanged, handleRenderStart, alvStep]
  · rw [ha]; simp [alvStep, renderSettle]
  · rw [ha]; simp [alvStep, renderSettle]
  · rcases hw with h | h <;> simp [alvStep, handleRenderStart, h]

/-- C5 (witness): the lifecycle theorem evaluated on a freshly constructed
non-visible view and on the `pending` view it produces. -/
theorem alvPendingLifecycle_witness :
    ((ALV.init false).visible = false
      ∧ (ALV.init false).renderState ≠ "rendering"
      ∧ (ALV.init false).renderState ≠ "pending"
      ∧ ((alvStep (ALV.init false) .request).renderState = "rendering"
          ∨ (alvStep (ALV.init false) .request).renderState = "pending"))
    ∧ ((alvStep (ALV.init false) .request).renderState = "pending"
        ∧ (alvStep (ALV.init false) .request).renderCalls = (ALV.init false).renderCalls
        ∧ alvStep (alvStep (ALV.init false) .request) (.activeItem true)
            = handleRenderStart
                { alvStep (ALV.init false) .request with
                    visible := true, renderState := "none" }
        ∧ (alvStep (alvStep (ALV.init false) .request) (.activeItem true)).renderState
            = "rendering"
        ∧ (alvStep (alvStep (ALV.init false) .request) (.activeItem true)).renderCalls
            = (ALV.init false).renderCalls + 1
        ∧ (alvStep (alvStep (alvStep (ALV.init false) .request) (.activeItem true))
            (.settle true)).renderState = "finished"
        ∧ (alvStep (alvStep (alvStep (ALV.init false) .request) (.activeItem true))
            (.settle true)).renderCalls = (ALV.init false).renderCalls + 1
        ∧ alvStep (alvStep (ALV.init false) .request) .request
            = alvStep (ALV.init false) .request) :=
  ⟨⟨rfl, by decide, by decide, by decide⟩,
    alvPendingLifecycle (ALV.init false) (alvStep (ALV.init false) .request)
      rfl (by decide) (by decide) (by decide)⟩

/-- C10: when the awaited `render()` promise rejects while `renderState`
is `rendering`, the remainder of `handleRender` never runs: the state
stays `rendering`, `did-render-finish` is not emitted, `restoreOffsets`
does not run, and under every subsequent sequence of events the view stays
in `rendering` with no further render invocation, finish event or offset
restoration — the view is wedged for the rest of its life. -/
theorem alvRenderFailureWedges (v : ALV) (es : List ALVEvent)
    (h1 : v.renderState = "rendering") (h2 : v.inFlight = true) :
    (renderSettle false v).renderState = "rendering"
    ∧ (renderSettle false v).finishEvents = v.finishEvents
    ∧ (renderSettle false v).restoreCalls = v.restoreCalls
    ∧ (alvRun (renderSettle false v) es).renderState = "rendering"
    ∧ (alvRun (renderSettle false v) es).renderCalls = v.renderCalls
    ∧ (alvRun (renderSettle false v) es).finishEvents = v.finishEvents
    ∧ (alvRun (renderSettle false v) es).restoreCalls = v.restoreCalls := by
  have hs : renderSettle false v = { v with inFlight := false } := by
    simp [renderSettle, h2]
  obtain ⟨r1, r2, r3, r4⟩ :=
    alvRun_wedged (renderSettle false v) es (by rw [hs]; exact h1) (by rw [hs])
  exact ⟨by rw [hs]; exact h1, by rw [hs], by rw [hs],
    r1, by rw [r2, hs], by rw [r3, hs], by rw [r4, hs]⟩

/-! ## Lemmas about the `ObservedKeyList` event machine -/

/-- Unfolding one error-free step of a run. -/
theorem oklRun_cons_ok (s s' : OKL) (e : OKLEvent) (es : List OKLEvent)
    (h : oklStep s e = (s', none)) :
    oklRun s (e :: es) = oklRun s' es := by
  simp [oklRun, h]

/-- A run over a concatenation continues from the error-free end state of
the first half. -/
theorem oklRun_append_ok (s s' : OKL) (as bs : List OKLEvent)
    (h : oklRun s as = (s', none)) :
    oklRun s (as ++ bs) = oklRun s' bs := by
  induction as generalizing s with
  | nil =>
    simp [oklRun] at h
    simp [h]
  | cons e es ih =>
    simp only [List.cons_append]
    simp only [oklRun] at h ⊢
    rcases hs : oklStep s e with ⟨s1, err⟩
    rw [hs] at h
    cases err with
    | none => exact ih s1 h
    | some msg => simp at h

/-- The handler body is the identity while a dispatch is queued. -/
theorem observeHandler_queued (s : OKL) (h : s.callbackQueued = true) :
    observeHandler s = s := by
  simp [observeHandler, h]

/-- The handler body preserves the coalescing invariant. -/
theorem observeHandler_inv (s : OKL) (h : OKLInv s) : OKLInv (observeHandler s) := by
  unfold OKLInv at *
  unfold observeHandler
  rcases hq : s.callbackQueued <;> rcases ht : s.callback.jsTruthy <;>
    simp [hq, ht] at h ⊢ <;> omega

/-- Adding one key preserves the coalescing invariant. -/
theorem addKey_inv (s : OKL) (k : String) (h : OKLInv s) : OKLInv (addKey s k) := by
  unfold addKey
  split
  · exact h
  · exact observeHandler_inv _ h

/-- The `add` loop preserves the coalescing invariant. -/
theorem foldl_addKey_inv (ks : List String) (s : OKL) (h : OKLInv s) :
    OKLInv (ks.foldl addKey s) := by
  induction ks generalizing s with
  | nil => exact h
  | cons k ks ih => exact ih (addKey s k) (addKey_inv s k h)

/-- The `delete` loop preserves the coalescing invariant (it never touches
the flag or the queue). -/
theorem foldl_deleteKey_inv (ks : List String) (s : OKL) (h : OKLInv s) :
    OKLInv (ks.foldl deleteKey s) := by
  induction ks generalizing s with
  | nil => exact h
  | cons k ks ih => exact ih (deleteKey s k) h

/-- Every error-free step preserves the coalescing invariant. -/
theorem oklStep_inv (s s' : OKL) (e : OKLEvent) (h : OKLInv s)
    (hs : oklStep s e = (s', none)) : OKLInv s' := by
  cases e with
  | notify =>
    simp only [oklStep] at hs
    cases hs
    exact observeHandler_inv s h
  | fire =>
    simp only [oklStep] at hs
    by_cases h0 : s.scheduled = 0
    · rw [if_pos h0] at hs; cases hs; exact h
    · rw [if_neg h0] at hs
      unfold OKLInv at h
      have h1 : s.scheduled = 1 := by
        rcases hqq : s.callbackQueued <;> rw [hqq] at h <;> simp at h <;> omega
      unfold OKLInv
      rcases hcb : s.callback with _ | id | t <;> rw [hcb] at hs <;> simp at hs <;>
        rw [← hs] <;> simp [h1]
  | setCallback v =>
    simp only [oklStep] at hs
    cases hs
    exact h
  | addKeys args =>
    simp only [oklStep, add] at hs
    rcases hn : normaliseFlat args with e | ks <;> rw [hn] at hs
    · exact absurd hs (by simp)
    · cases hs
      exact foldl_addKey_inv ks s h
  | deleteKeys args =>
    simp only [oklStep, del] at hs
    rcases hn : normaliseFlat args with e | ks <;> rw [hn] at hs
    · exact absurd hs (by simp)
    · cases hs
      exact foldl_deleteKey_inv ks s h
  | clearAll =>
    simp only [oklStep, clear] at hs
    cases hs
    exact h

/-- Every error-free run preserves the coalescing invariant. -/
theorem oklRun_inv (s s' : OKL) (es : List OKLEvent) (h : OKLInv s)
    (hr : oklRun s es = (s', none)) : OKLInv s' := by
  induction es generalizing s with
  | nil =>
    simp only [oklRun, Prod.mk.injEq] at hr
    rw [← hr.1]
    exact h
  | cons e es ih =>
    simp only [oklRun] at hr
    rcases hs : oklStep s e with ⟨s1, err⟩
    rw [hs] at hr
    cases err with
    | none => exact ih s1 (oklStep_inv s s1 e h hs) hr
    | some msg => simp at hr

/-- A constructed instance satisfies the coalescing invariant. -/
theorem construct_inv (cb : CBVal) (ks : KeyValList) (s : OKL)
    (h : construct cb ks = .ok s) : OKLInv s := by
  have hinit : OKLInv (oklInit cb) := by simp [OKLInv, oklInit]
  unfold construct at h
  rcases cb with _ | id | t
  case nonfunc => exact absurd h (by simp)
  all_goals
    cases ks with
    | nil => simp at h; rw [← h]; exact hinit
    | cons v vs =>
      simp only [add] at h
      rcases hn : normaliseFlat (.cons v vs) with e | l <;> rw [hn] at h
      · exact absurd h (by simp)
      · simp at h
        rw [← h]
        exact foldl_addKey_inv l _ hinit

/-- Every reachable state satisfies the coalescing invariant. -/
theorem oklReachable_inv (s : OKL) (h : OKLReachable s) : OKLInv s := by
  obtain ⟨cb, ks, s0, es, hc, hr⟩ := h
  exact oklRun_inv s0 s es (construct_inv cb ks s0 hc) hr

/-! ## Claims C1, C2, C3 -/

/-- C1: in every reachable instance state at most one scheduled-but-not-
yet-fired dispatch exists; while one is queued, any number of further
change notifications leave the state untouched, and when the queued thunk
fires after such a burst it performs exactly one callback invocation;
a notification arriving once the flag is clear schedules one new,
separate dispatch. -/
theorem oklCoalescingWindow (s : OKL) (hr : OKLReachable s) :
    s.scheduled ≤ 1
    ∧ (s.callbackQueued = true →
        (∀ n, oklRun s (List.replicate n .notify) = (s, none))
        ∧ (∀ id, s.callback = .func id → ∀ n,
            oklRun s (List.replicate n .notify ++ [.fire])
              = ({ s with callbackQueued := false, scheduled := 0,
                          invocations := s.invocations ++ [⟨0, true⟩] }, none)))
    ∧ (s.callbackQueued = false → ∀ id, s.callback = .func id →
        oklStep s .notify
          = ({ s with callbackQueued := true, scheduled := 1 }, none)) := by
  have hinv := oklReachable_inv s hr
  unfold OKLInv at hinv
  refine ⟨?_, fun hq => ⟨?_, ?_⟩, fun hq id hcb => ?_⟩
  · rw [hinv]; split <;> omega
  · intro n
    induction n with
    | zero => simp [oklRun]
    | succ n ih =>
      rw [List.replicate_succ, oklRun_cons_ok s s .notify _ (by
        simp [oklStep, observeHandler_queued s hq])]
      exact ih
  · intro id hcb n
    have hrep : oklRun s (List.replicate n .notify) = (s, none) := by
      induction n with
      | zero => simp [oklRun]
      | succ n ih =>
        rw [List.replicate_succ, oklRun_cons_ok s s .notify _ (by
          simp [oklStep, observeHandler_queued s hq])]
        exact ih
    rw [oklRun_append_ok s s _ _ hrep]
    have hsched : s.scheduled = 1 := by rw [hinv, if_pos hq]
    simp [oklRun, oklStep, hsched, hcb]
  · have hsched : s.scheduled = 0 := by rw [hinv, if_neg (by simp [hq])]
    simp [oklStep, observeHandler, hq, hcb, CBVal.jsTruthy, hsched]

/-- C1 (witness): the coalescing theorem evaluated on the reachable state
produced by constructing with a function callback and receiving one
notification. -/
theorem oklCoalescingWindow_witness :
    (OKLReachable (observeHandler (oklInit (.func 0))))
    ∧ ((observeHandler (oklInit (.func 0))).scheduled ≤ 1
    ∧ ((observeHandler (oklInit (.func 0))).callbackQueued = true →
        (∀ n, oklRun (observeHandler (oklInit (.func 0))) (List.replicate n .notify)
            = (observeHandler (oklInit (.func 0)), none))
        ∧ (∀ id, (observeHandler (oklInit (.func 0))).callback = .func id → ∀ n,
            oklRun (observeHandler (oklInit (.func 0))) (List.replicate n .notify ++ [.fire])
              = ({ observeHandler (oklInit (.func 0)) with
                    callbackQueued := false, scheduled := 0,
                    invocations :=
                      (observeHandler (oklInit (.func 0))).invocations ++ [⟨0, true⟩] },
                  none)))
    ∧ ((observeHandler (oklInit (.func 0))).callbackQueued = false →
        ∀ id, (observeHandler (oklInit (.func 0))).callback = .func id →
        oklStep (observeHandler (oklInit (.func 0))) .notify
          = ({ observeHandler (oklInit (.func 0)) with
                callbackQueued := true, scheduled := 1 }, none))) :=
  have hreach : OKLReachable (observeHandler (oklInit (.func 0))) :=
    ⟨.func 0, .nil, oklInit (.func 0), [.notify], rfl, rfl⟩
  ⟨hreach, oklCoalescingWindow (observeHandler (oklInit (.func 0))) hreach⟩

/-- C2 (counterexample): after a notification schedules a dispatch with a
function callback, nulling the callback before the `process.nextTick`
thunk runs makes the fire throw `TypeError` (the source calls
`this.callback()` with no fire-time nullity check), instead of silently
skipping the invocation as the claim states. -/
theorem oklFireNullThrows_cx :
    (oklRun (oklInit (.func 0)) [.notify, .setCallback .null, .fire]).2
      = some "TypeError: this.callback is not a function"
    ∧ (oklRun (oklInit (.func 0)) [.notify, .setCallback .null, .fire]).1.invocations
      = [] := by
  decide

/-- C2 (amended): dispatch is never synchronous with the triggering
notification — a `notify` step performs no invocation and throws nothing;
when a queued thunk fires it first clears the pending flag and then calls
`this.callback()` unconditionally: a function callback is invoked exactly
once with zero arguments and `this` bound to the instance, while a
callback nulled since scheduling makes the fire throw a `TypeError` after
the flag is already cleared. -/
theorem oklFireSemantics (s : OKL) (h : s.scheduled ≠ 0) :
    (oklStep s .notify).1.invocations = s.invocations
    ∧ (oklStep s .notify).2 = none
    ∧ (oklStep s .fire).1.callbackQueued = false
    ∧ (∀ id, s.callback = .func id →
        oklStep s .fire
          = ({ s with callbackQueued := false, scheduled := s.scheduled - 1,
                      invocations := s.invocations ++ [⟨0, true⟩] }, none))
    ∧ (s.callback = .null →
        oklStep s .fire
          = ({ s with callbackQueued := false, scheduled := s.scheduled - 1 },
              some "TypeError: this.callback is not a function")) := by
  refine ⟨?_, ?_, ?_, fun id hcb => ?_, fun hcb => ?_⟩
  · simp only [oklStep, observeHandler]
    split <;> simp
  · simp [oklStep]
  · simp only [oklStep, if_neg h]
    rcases s.callback <;> simp
  · simp [oklStep, if_neg h, hcb]
  · simp [oklStep, if_neg h, hcb]

/-- C2 (witness): the fire-time semantics evaluated on the state with one
queued dispatch and a function callback. -/
theorem oklFireSemantics_witness :
    ((observeHandler (oklInit (.func 0))).scheduled ≠ 0)
    ∧ ((oklStep (observeHandler (oklInit (.func 0))) .notify).1.invocations
        = (observeHandler (oklInit (.func 0))).invocations
    ∧ (oklStep (observeHandler (oklInit (.func 0))) .notify).2 = none
    ∧ (oklStep (observeHandler (oklInit (.func 0))) .fire).1.callbackQueued = false
    ∧ (∀ id, (observeHandler (oklInit (.func 0))).callback = .func id →
        oklStep (observeHandler (oklInit (.func 0))) .fire
          = ({ observeHandler (oklInit (.func 0)) with
                callbackQueued := false,
                scheduled := (observeHandler (oklInit (.func 0))).scheduled - 1,
                invocations :=
                  (observeHandler (oklInit (.func 0))).invocations ++ [⟨0, true⟩] }, none))
    ∧ ((observeHandler (oklInit (.func 0))).callback = .null →
        oklStep (observeHandler (oklInit (.func 0))) .fire
          = ({ observeHandler (oklInit (.func 0)) with
                callbackQueued := false,
                scheduled := (observeHandler (oklInit (.func 0))).scheduled - 1 },
              some "TypeError: this.callback is not a function"))) :=
  ⟨by decide, oklFireSemantics (observeHandler (oklInit (.func 0))) (by decide)⟩

/-- C3 (counterexample): assigning a non-null, non-function value to the
`callback` property of an existing instance does not throw — `callback` is
a plain writable data property with no validating setter — and the prior
callback is overwritten rather than left unchanged. -/
theorem oklAssignNoValidation_cx :
    (oklStep (oklInit .null) (.setCallback (.nonfunc true))).2 = none
    ∧ (oklStep (oklInit .null) (.setCallback (.nonfunc true))).1.callback
        = .nonfunc true := by
  decide

/-- C3 (amended): constructing with a non-null, non-function callback
raises `TypeError` synchronously and yields no instance, while `null` and
function callbacks construct successfully; assigning to the `callback`
property of an existing instance performs no validation at all — every
value, functions and non-functions alike, is stored without error,
replacing the previous callback. -/
theorem oklCallbackValidation (t : Bool) (id : Nat) (s : OKL) :
    construct .null .nil = .ok (oklInit .null)
    ∧ construct (.func id) .nil = .ok (oklInit (.func id))
    ∧ construct (.nonfunc t) .nil = .error "Callback argument is not a function"
    ∧ (∀ v, oklStep s (.setCallback v) = ({ s with callback := v }, none)) :=
  ⟨rfl, rfl, rfl, fun _ => rfl⟩

/-! ## Lemmas about key normalisation -/

/-- The only `TypeError` normalisation can throw is the non-iterable one. -/
theorem normaliseFlat_error : ∀ (l : KeyValList) (e : String),
    normaliseFlat l = .error e → e = "Object is not iterable"
  | .cons (.str s) rest, e, h => by
    rw [normaliseFlat.eq_def] at h
    dsimp only at h
    split at h
    · rcases hr : normaliseFlat rest with e' | r <;> rw [hr] at h
      · exact (Except.error.inj h) ▸ normaliseFlat_error rest e' hr
      · exact absurd h (by simp)
    · exact normaliseFlat_error rest e h
  | .cons (.num n) rest, e, h => by
    rw [normaliseFlat.eq_def] at h
    dsimp only at h
    split at h <;> exact normaliseFlat_error rest e h
  | .cons (.boolV b) rest, e, h => by
    rw [normaliseFlat.eq_def] at h
    dsimp only at h
    split at h <;> exact normaliseFlat_error rest e h
  | .cons (.arr xs) rest, e, h => by
    rw [normaliseFlat.eq_def] at h
    dsimp only [KeyVal.jsTruthy] at h
    rw [if_pos rfl] at h
    rcases hx : normaliseFlat xs with e' | ys <;> rw [hx] at h
    · exact (Except.error.inj h) ▸ normaliseFlat_error xs e' hx
    · rcases hr : normaliseFlat rest with e' | r <;> rw [hr] at h
      · exact (Except.error.inj h) ▸ normaliseFlat_error rest e' hr
      · exact absurd h (by simp)
  | .cons .obj rest, e, h => by
    rw [normaliseFlat.eq_def] at h
    dsimp only [KeyVal.jsTruthy] at h
    rw [if_pos rfl] at h
    exact (Except.error.inj h).symm

/-- A number element of the inner loop is always skipped: falsy `0` via
the `if(!value)` guard, any other number because it matches no `case`. -/
theorem normaliseFlat_num (n : Int) (rest : KeyValList) :
    normaliseFlat (.cons (.num n) rest) = normaliseFlat rest := by
  rw [normaliseFlat.eq_def]
  dsimp only
  split <;> rfl

/-- A boolean element of the inner loop is likewise always skipped. -/
theorem normaliseFlat_bool (b : Bool) (rest : KeyValList) :
    normaliseFlat (.cons (.boolV b) rest) = normaliseFlat rest := by
  rw [normaliseFlat.eq_def]
  dsimp only
  split <;> rfl

/-! ## Claims C7, C8, C9 -/

/-- C7 (counterexample): `add(42)` leaves the key set unchanged and raises
nothing — the number is silently skipped by the inner loop of
`normaliseKeys`, so the key `"42"` is not present afterwards. -/
theorem oklAddNumberSkipped_cx :
    add (oklInit (.func 0)) (kvList [.num 42]) = (oklInit (.func 0), none)
    ∧ ¬ "42" ∈ (add (oklInit (.func 0)) (kvList [.num 42])).1.keys := by
  decide

/-- C7 (amended): an element of `add`'s argument list that is neither a
string nor an object is silently dropped, not coerced: the inner loop of
`normaliseKeys` skips it (falsy values via the `if(!value)` guard, truthy
numbers and booleans because they match no `case`), so `add` leaves the
instance unchanged.  The `String(input)` coercion of the outer `switch`
applies only when such a scalar is the direct argument of `normaliseKeys`
itself, where `42` does become `"42"` — but `add` always hands
`normaliseKeys` the rest-parameter array, never a bare scalar. -/
theorem oklScalarHandling (s : OKL) (n : Int) (b : Bool) :
    normaliseKeys (.num 42) = .ok ["42"]
    ∧ add s (kvList [.num n]) = (s, none)
    ∧ add s (kvList [.boolV b]) = (s, none) := by
  refine ⟨by decide, ?_, ?_⟩
  · show add s (.cons (.num n) .nil) = (s, none)
    unfold add
    rw [normaliseFlat_num]
    rfl
  · show add s (.cons (.boolV b) .nil) = (s, none)
    unfold add
    rw [normaliseFlat_bool]
    rfl

/-- C8 (counterexample): `add("a", {foo: "bar"})` on a fresh instance
throws `TypeError: Object is not iterable` and adds nothing: the earlier
valid key `"a"` is *not* present after the failed call, because `add`
fully evaluates `this.normaliseKeys(keys)` before its loop body ever
runs. -/
theorem oklAddNotRolledBack_cx :
    add (oklInit (.func 0)) (kvList [.str "a", .obj])
      = (oklInit (.func 0), some "Object is not iterable")
    ∧ (add (oklInit (.func 0)) (kvList [.str "a", .obj])).1.keys = [] := by
  decide

/-- C8 (amended): handing `add` or `delete` a non-string, non-iterable
object raises `TypeError: Object is not iterable` synchronously from the
normalisation step, and since the `for…of` loop's iterable
`this.normaliseKeys(keys)` is computed in full before the first iteration,
*no* key of the failing call has been added or removed when the error
propagates: the failed call is atomic, leaving the instance exactly as it
was, rather than keeping partial effects. -/
theorem oklNotIterableAtomic (s : OKL) (args : KeyValList) (e e' : String)
    (ha : (add s args).2 = some e) (hd : (del s args).2 = some e') :
    e = "Object is not iterable"
    ∧ e' = e
    ∧ (add s args).1 = s
    ∧ (del s args).1 = s := by
  unfold add at ha ⊢
  unfold del at hd ⊢
  rcases hn : normaliseFlat args with msg | ks
  · rw [hn] at ha hd
    dsimp only at ha hd ⊢
    have hmsg : msg = "Object is not iterable" := normaliseFlat_error args msg hn
    have he : msg = e := Option.some.inj ha
    have he' : msg = e' := Option.some.inj hd
    exact ⟨he ▸ hmsg, he' ▸ he ▸ rfl, rfl, rfl⟩
  · rw [hn] at ha
    dsimp only at ha
    exact absurd ha (by simp)

/-- C8 (witness): the atomicity theorem evaluated on the fresh instance
and the argument list `("a", {foo: "bar"})`. -/
theorem oklNotIterableAtomic_witness :
    ((add (oklInit (.func 0)) (kvList [.str "a", .obj])).2
        = some "Object is not iterable"
      ∧ (del (oklInit (.func 0)) (kvList [.str "a", .obj])).2
        = some "Object is not iterable")
    ∧ ("Object is not iterable" = "Object is not iterable"
      ∧ "Object is not iterable" = "Object is not iterable"
      ∧ (add (oklInit (.func 0)) (kvList [.str "a", .obj])).1 = oklInit (.func 0)
      ∧ (del (oklInit (.func 0)) (kvList [.str "a", .obj])).1 = oklInit (.func 0)) :=
  ⟨⟨by decide, by decide⟩,
    oklNotIterableAtomic (oklInit (.func 0)) (kvList [.str "a", .obj])
      "Object is not iterable" "Object is not iterable" (by decide) (by decide)⟩

/-- C9: `clear()` empties the key set, disposes every subscription handle
(the whole `MappedDisposable` is disposed, so every live handle joins the
disposed log) and replaces the subscription store with a fresh empty one
(a new store generation), while leaving the `callback` property unchanged;
clearing an already-cleared instance changes none of the observable
bookkeeping — `clear` is a total function that raises no error on an empty
instance. -/
theorem oklClearSemantics (s : OKL) :
    (clear s).keys = []
    ∧ (clear s).subs = []
    ∧ (clear s).disposed = s.disposed ++ s.subs.map Prod.snd
    ∧ (clear s).callback = s.callback
    ∧ (clear s).storeGen = s.storeGen + 1
    ∧ (clear (clear s)).keys = (clear s).keys
    ∧ (clear (clear s)).subs = (clear s).subs
    ∧ (clear (clear s)).disposed = (clear s).disposed
    ∧ (clear (clear s)).callback = (clear s).callback := by
  refine ⟨rfl, rfl, rfl, rfl, rfl, rfl, rfl, ?_, rfl⟩
  simp [clear]

/-! ## Lemmas about whitespace splitting -/

theorem string_mk_data (s : String) : String.mk s.data = s := by
  cases s
  rfl

theorem string_data_append (a b : String) : (a ++ b).data = a.data ++ b.data := by
  cases a
  cases b
  rfl

theorem splitWords_nil : splitWords [] = [] := rfl

/-- A leading whitespace character is skipped. -/
theorem splitWords_space_cons (c : Char) (l : List Char) (h : jsIsSpace c = true) :
    splitWords (c :: l) = splitWords l := by
  conv_lhs => rw [splitWords.eq_def]
  simp [h]

/-- A maximal non-whitespace run at the front becomes one word: splitting
`w ++ l`, where `w` is nonempty and whitespace-free and `l` is empty or
starts with whitespace, yields the word `w` followed by the splitting of
`l`. -/
theorem splitWords_word_append : ∀ (w l : List Char), w ≠ [] →
    (∀ c ∈ w, jsIsSpace c = false) →
    (l = [] ∨ ∃ d l', l = d :: l' ∧ jsIsSpace d = true) →
    splitWords (w ++ l) = String.mk w :: splitWords l
  | [], _, hne, _, _ => absurd rfl hne
  | [c], l, _, hw, hl => by
    have hc : jsIsSpace c = false := hw c (by simp)
    rcases hl with rfl | ⟨d, l', rfl, hd⟩
    · simp only [List.cons_append, List.nil_append, List.append_nil]
      conv_lhs => rw [splitWords.eq_def]
      simp [hc, splitWords_nil]
    · simp only [List.cons_append, List.nil_append]
      conv_lhs => rw [splitWords.eq_def]
      simp [hc, hd]
  | c :: c' :: w', l, _, hw, hl => by
    have hc : jsIsSpace c = false := hw c (by simp)
    have hc' : jsIsSpace c' = false := hw c' (by simp)
    have ih := splitWords_word_append (c' :: w') l (by simp)
      (fun x hx => hw x (List.mem_cons_of_mem c hx)) hl
    simp only [List.cons_append] at ih ⊢
    conv_lhs => rw [splitWords.eq_def]
    simp [hc, hc', ih]

/-- A nonempty whitespace-free character list splits into itself alone. -/
theorem splitWords_single (w : List Char) (h1 : w ≠ [])
    (h2 : ∀ c ∈ w, jsIsSpace c = false) :
    splitWords w = [String.mk w] := by
  have h := splitWords_word_append w [] h1 h2 (Or.inl rfl)
  rw [List.append_nil] at h
  rw [h, splitWords_nil]

/-- `trimSplit` of a valid (nonempty, whitespace-free) key is that key. -/
theorem trimSplit_valid (a : String) (h1 : a.data ≠ [])
    (h2 : ∀ c ∈ a.data, jsIsSpace c = false) :
    trimSplit a = [a] := by
  unfold trimSplit
  rw [splitWords_single a.data h1 h2, string_mk_data]

/-- `trimSplit` of two valid keys joined by one space. -/
theorem trimSplit_pair (a b : String)
    (ha1 : a.data ≠ []) (ha2 : ∀ c ∈ a.data, jsIsSpace c = false)
    (hb1 : b.data ≠ []) (hb2 : ∀ c ∈ b.data, jsIsSpace c = false) :
    trimSplit (a ++ " " ++ b) = [a, b] := by
  unfold trimSplit
  have hd : (a ++ " " ++ b).data = a.data ++ (' ' :: b.data) := by
    rw [string_data_append, string_data_append, List.append_assoc]
    rfl
  rw [hd,
    splitWords_word_append a.data (' ' :: b.data) ha1 ha2
      (Or.inr ⟨' ', b.data, rfl, by decide⟩),
    splitWords_space_cons ' ' b.data (by decide),
    splitWords_single b.data hb1 hb2, string_mk_data, string_mk_data]

/-- `trimSplit` of two valid keys with padding and doubled interior
whitespace. -/
theorem trimSplit_spaced (a b : String)
    (ha1 : a.data ≠ []) (ha2 : ∀ c ∈ a.data, jsIsSpace c = false)
    (hb1 : b.data ≠ []) (hb2 : ∀ c ∈ b.data, jsIsSpace c = false) :
    trimSplit (" " ++ a ++ "  " ++ b ++ " ") = [a, b] := by
  unfold trimSplit
  have hd : (" " ++ a ++ "  " ++ b ++ " ").data
      = ' ' :: (a.data ++ (' ' :: ' ' :: (b.data ++ [' ']))) := by
    rw [string_data_append, string_data_append, string_data_append, string_data_append]
    simp [List.append_assoc]
  rw [hd, splitWords_space_cons _ _ (by decide),
    splitWords_word_append a.data (' ' :: ' ' :: (b.data ++ [' '])) ha1 ha2
      (Or.inr ⟨' ', _, rfl, by decide⟩),
    splitWords_space_cons _ _ (by decide), splitWords_space_cons _ _ (by decide),
    splitWords_word_append b.data [' '] hb1 hb2 (Or.inr ⟨' ', [], rfl, by decide⟩),
    splitWords_space_cons _ _ (by decide), splitWords_nil,
    string_mk_data, string_mk_data]

/-! ## Lemmas computing `normaliseFlat` on string and array arguments -/

theorem normaliseFlat_nilList : normaliseFlat .nil = .ok [] := rfl

/-- A single nonempty string argument normalises to its `trimSplit`. -/
theorem normaliseFlat_one_str (s : String) (h : s.data ≠ []) :
    normaliseFlat (.cons (.str s) .nil) = .ok (trimSplit s) := by
  have htr : (KeyVal.str s).jsTruthy = true := by
    dsimp only [KeyVal.jsTruthy]
    cases hd : s.data
    · exact absurd hd h
    · rfl
  conv_lhs => rw [normaliseFlat.eq_def]
  dsimp only
  rw [if_pos htr, normaliseFlat_nilList]
  dsimp only
  rw [List.append_nil]

/-- Two nonempty string arguments normalise to their concatenated
`trimSplit`s. -/
theorem normaliseFlat_two_str (a b : String) (ha : a.data ≠ []) (hb : b.data ≠ []) :
    normaliseFlat (.cons (.str a) (.cons (.str b) .nil))
      = .ok (trimSplit a ++ trimSplit b) := by
  have htr : (KeyVal.str a).jsTruthy = true := by
    dsimp only [KeyVal.jsTruthy]
    cases hd : a.data
    · exact absurd hd ha
    · rfl
  conv_lhs => rw [normaliseFlat.eq_def]
  dsimp only
  rw [if_pos htr, normaliseFlat_one_str b hb]

/-- A single iterable argument normalises to its elements' flattening. -/
theorem normaliseFlat_one_arr (xs : KeyValList) (L : List String)
    (h : normaliseFlat xs = .ok L) :
    normaliseFlat (.cons (.arr xs) .nil) = .ok L := by
  conv_lhs => rw [normaliseFlat.eq_def]
  dsimp only [KeyVal.jsTruthy]
  rw [if_pos rfl, h, normaliseFlat_nilList]
  dsimp only
  rw [List.append_nil]

/-! ## Claim C6 -/

/-- C6 (counterexample): a whitespace-only string argument is *not*
dropped: `add(" ")` adds the empty-string key `""` (trimming yields `""`
and `"".split(/\s+/)` is `[""]`), so the set gains a key where the claim
says blank strings are dropped. -/
theorem oklBlankStringNotDropped_cx :
    (add (oklInit (.func 0)) (kvList [.str " "])).1.keys = [""]
    ∧ (add (oklInit (.func 0)) (kvList [.str " "])).2 = none
    ∧ "" ∈ (add (oklInit (.func 0)) (kvList [.str " "])).1.keys := by
  decide

/-- C6 (amended): for all valid key strings (nonempty and free of
whitespace), `add("a b")`, `add(["a","b"])`, `add("a","b")` and
`add(" a  b ")` leave the instance in the identical state — same key set,
same subscription domain, same coalescing state — and an empty string
argument is dropped (its call leaves the instance untouched); a
whitespace-only string, however, is not dropped: it collapses to the
empty-string key `""`, which is added and observed. -/
theorem oklAddNormalisationEquiv (s : OKL) (a b : String)
    (ha1 : a.data ≠ []) (ha2 : ∀ c ∈ a.data, jsIsSpace c = false)
    (hb1 : b.data ≠ []) (hb2 : ∀ c ∈ b.data, jsIsSpace c = false) :
    add s (kvList [.str (a ++ " " ++ b)]) = add s (kvList [.str a, .str b])
    ∧ add s (kvList [.arr (kvList [.str a, .str b])]) = add s (kvList [.str a, .str b])
    ∧ add s (kvList [.str (" " ++ a ++ "  " ++ b ++ " ")])
        = add s (kvList [.str a, .str b])
    ∧ add s (kvList [.str ""]) = (s, none)
    ∧ add s (kvList [.str " "]) = (addKey s "", none) := by
  have hpl : (a ++ " " ++ b).data ≠ [] := by
    rw [string_data_append]
    exact fun hc => hb1 (List.append_eq_nil.mp hc).2
  have hps : (" " ++ a ++ "  " ++ b ++ " ").data ≠ [] := by
    rw [string_data_append]
    simp
  have n2 : normaliseFlat (kvList [.str a, .str b]) = .ok [a, b] := by
    show normaliseFlat (.cons (.str a) (.cons (.str b) .nil)) = .ok [a, b]
    rw [normaliseFlat_two_str a b ha1 hb1, trimSplit_valid a ha1 ha2,
      trimSplit_valid b hb1 hb2]
    rfl
  have n1 : normaliseFlat (kvList [.str (a ++ " " ++ b)]) = .ok [a, b] := by
    show normaliseFlat (.cons (.str (a ++ " " ++ b)) .nil) = .ok [a, b]
    rw [normaliseFlat_one_str _ hpl, trimSplit_pair a b ha1 ha2 hb1 hb2]
  have n3 : normaliseFlat (kvList [.arr (kvList [.str a, .str b])]) = .ok [a, b] := by
    show normaliseFlat (.cons (.arr (kvList [.str a, .str b])) .nil) = .ok [a, b]
    exact normaliseFlat_one_arr _ _ n2
  have n4 : normaliseFlat (kvList [.str (" " ++ a ++ "  " ++ b ++ " ")]) = .ok [a, b] := by
    show normaliseFlat (.cons (.str (" " ++ a ++ "  " ++ b ++ " ")) .nil) = .ok [a, b]
    rw [normaliseFlat_one_str _ hps, trimSplit_spaced a b ha1 ha2 hb1 hb2]
  refine ⟨?_, ?_, ?_, ?_, ?_⟩ <;> unfold add
  · rw [n1, n2]
  · rw [n3, n2]
  · rw [n4, n2]
  · rw [show normaliseFlat (kvList [.str ""]) = .ok [] from by decide]
    rfl
  · rw [show normaliseFlat (kvList [.str " "]) = .ok [""] from by decide]
    rfl

/-- C6 (witness): the normalisation-equivalence theorem evaluated on the
fresh instance with the keys `"x"` and `"y"`. -/
theorem oklAddNormalisationEquiv_witness :
    (("x" : String).data ≠ [] ∧ (∀ c ∈ ("x" : String).data, jsIsSpace c = false)
      ∧ ("y" : String).data ≠ [] ∧ (∀ c ∈ ("y" : String).data, jsIsSpace c = false))
    ∧ (add (oklInit (.func 0)) (kvList [.str ("x" ++ " " ++ "y")])
          = add (oklInit (.func 0)) (kvList [.str "x", .str "y"])
      ∧ add (oklInit (.func 0)) (kvList [.arr (kvList [.str "x", .str "y"])])
          = add (oklInit (.func 0)) (kvList [.str "x", .str "y"])
      ∧ add (oklInit (.func 0)) (kvList [.str (" " ++ "x" ++ "  " ++ "y" ++ " ")])
          = add (oklInit (.func 0)) (kvList [.str "x", .str "y"])
      ∧ add (oklInit (.func 0)) (kvList [.str ""]) = (oklInit (.func 0), none)
      ∧ add (oklInit (.func 0)) (kvList [.str " "])
          = (addKey (oklInit (.func 0)) "", none)) :=
  ⟨⟨by decide, by decide, by decide, by decide⟩,
    oklAddNormalisationEquiv (oklInit (.func 0)) "x" "y"
      (by decide) (by decide) (by decide) (by decide)⟩

/-- C10 (witness): the wedging theorem evaluated on a visible view whose
first render is in flight, with a later event sequence that tries a new
request, a visibility round-trip and another settle. -/
theorem alvRenderFailureWedges_witness :
    ((alvStep (ALV.init true) .request).renderState = "rendering"
      ∧ (alvStep (ALV.init true) .request).inFlight = true)
    ∧ ((renderSettle false (alvStep (ALV.init true) .request)).renderState = "rendering"
        ∧ (renderSettle false (alvStep (ALV.init true) .request)).finishEvents
            = (alvStep (ALV.init true) .request).finishEvents
        ∧ (renderSettle false (alvStep (ALV.init true) .request)).restoreCalls
            = (alvStep (ALV.init true) .request).restoreCalls
        ∧ (alvRun (renderSettle false (alvStep (ALV.init true) .request))
            [.request, .activeItem false, .activeItem true, .request, .settle true]).renderState
            = "rendering"
        ∧ (alvRun (renderSettle false (alvStep (ALV.init true) .request))
            [.request, .activeItem false, .activeItem true, .request, .settle true]).renderCalls
            = (alvStep (ALV.init true) .request).renderCalls
        ∧ (alvRun (renderSettle false (alvStep (ALV.init true) .request))
            [.request, .activeItem false, .activeItem true, .request, .settle true]).finishEvents
            = (alvStep (ALV.init true) .request).finishEvents
        ∧ (alvRun (renderSettle false (alvStep (ALV.init true) .request))
            [.request, .activeItem false, .activeItem true, .request, .settle true]).restoreCalls
            = (alvStep (ALV.init true) .request).restoreCalls) :=
  ⟨⟨by decide, by decide⟩,
    alvRenderFailureWedges (alvStep (ALV.init true) .request)
      [.request, .activeItem false, .activeItem true, .request, .settle true]
      (by decide) (by decide)⟩

end AtomLiveViewRepo
